import Mathlib

/-!
Verification development for the CustomXMLParser repository
(src/CustomXMLParser/main.py).  The Python code is shallowly embedded:
Python values (strings, tuples of strings, dicts, lists, None) become the
inductive type `PyV`, insertion-ordered dicts become association lists over
`PyKey`, Python exceptions become the `Except PyErr` monad, and console
diagnostics (`self._print` calls) become explicit `Diag` values returned
alongside results.  Recursive procedures that are not structurally
recursive in Python are embedded with an explicit fuel parameter that is
decremented on every recursive call; all Python loops terminate on the
inputs considered here, so any sufficiently large fuel computes the same
value as the Python code.
-/

namespace CustomXMLParser

/-- A Python dictionary key as it occurs in this program: a string, `None`
(possible when a table header cell lacks the text key), or a tuple of
strings (possible when an element name is itself a tuple). -/
inductive PyKey where
  | ks : String → PyKey
  | knone : PyKey
  | ktup : List String → PyKey
deriving DecidableEq, Repr

/-- A Python value as it occurs in this program: a string, `None`, a tuple
of strings (a table column produced by `zip`), an insertion-ordered dict,
or a list. -/
inductive PyV where
  | pstr : String → PyV
  | pnone : PyV
  | ptup : List String → PyV
  | pobj : List (PyKey × PyV) → PyV
  | plist : List PyV → PyV
deriving Repr

/-- An insertion-ordered Python dict. -/
abbrev Obj := List (PyKey × PyV)

/-- The Python exceptions that the embedded code can raise.
`fuelExhausted` is an artifact of the fuel-based embedding and never
occurs for sufficiently large fuel. -/
inductive PyErr where
  | keyError
  | typeError
  | attrError
  | valueError
  | indexError
  | stopIteration
  | fuelExhausted
deriving DecidableEq, Repr

/-- The diagnostics printed by `self._print` calls in the modelled code. -/
inductive Diag where
  /-- "Header and rows for [element] do not match. [missing] is incomplete."
  (main.py lines 130-131) -/
  | headerRowsMismatch : PyKey → String → Diag
  /-- "Resource `validKeys` is not available." (main.py line 230) -/
  | resourceUnavailable : List String → Diag
  /-- "Key [key] resource ... is not available." (main.py line 244) -/
  | keyResourceUnavailable : PyKey → Diag
deriving DecidableEq, Repr

/-- The configurable identifier keys of `XmlParser.__init__`. -/
structure Keys where
  nameKey : String
  tableKey : String
  headerKey : String
  dataKey : String
  headerTextKey : String
  treeIdn : String
  keysIdn : String

/-- The default identifier keys of `XmlParser.__init__`. -/
def defaultKeys : Keys :=
  ⟨"@name", "th", "header", "rows", "#text", "TREE", "KEYS"⟩

/-- First-match association-list lookup; Python dicts hold each key once,
so this is plain `d[k]` lookup returning `none` for a missing key. -/
def objLookup : Obj → PyKey → Option PyV
  | [], _ => none
  | (k0, v0) :: rest, k => if k0 = k then some v0 else objLookup rest k

/-- `k in d` for a Python dict. -/
def objMem (d : Obj) (k : PyKey) : Bool :=
  (objLookup d k).isSome

/-- `d[k] = v` for a Python dict: replace in place if the key is present
(keeping its position), otherwise append. -/
def objAssign : Obj → PyKey → PyV → Obj
  | [], k, v => [(k, v)]
  | (k0, v0) :: rest, k, v =>
    if k0 = k then (k, v) :: rest else (k0, v0) :: objAssign rest k v

/-- `d.update(other)` for Python dicts: assign each entry of `other` in
order. -/
def objUpdate (d : Obj) (other : Obj) : Obj :=
  other.foldl (fun acc kv => objAssign acc kv.1 kv.2) d

/-- Python truthiness for the modelled values. -/
def PyV.truthy : PyV → Bool
  | .pstr s => !s.isEmpty
  | .pnone => false
  | .ptup l => !l.isEmpty
  | .pobj o => !o.isEmpty
  | .plist l => !l.isEmpty

/-- Truthiness of the result of `d.get(k)` (default `None`). -/
def truthyOpt : Option PyV → Bool
  | none => false
  | some v => v.truthy

/-- `v.get(k, dflt)`: dict method lookup with default; any non-dict
receiver raises `AttributeError`. -/
def pyGetD : PyV → PyKey → PyV → Except PyErr PyV
  | .pobj o, k, dflt => .ok ((objLookup o k).getD dflt)
  | _, _, _ => .error .attrError

/-- `v.get(k)`: dict method lookup defaulting to `None` (kept as
`Option`); any non-dict receiver raises `AttributeError`. -/
def pyGetOpt : PyV → PyKey → Except PyErr (Option PyV)
  | .pobj o, k => .ok (objLookup o k)
  | _, _ => .error .attrError

/-- `v[k]` for a string key `k`: dicts raise `KeyError` when the key is
absent; strings, tuples, lists and `None` raise `TypeError` when indexed
by a string. -/
def pyItem : PyV → PyKey → Except PyErr PyV
  | .pobj o, k =>
    match objLookup o k with
    | some v => .ok v
    | none => .error .keyError
  | _, _ => .error .typeError

/-- `len(v)`; `len(None)` raises `TypeError`. -/
def pyLen : PyV → Except PyErr Nat
  | .pstr s => .ok s.length
  | .pnone => .error .typeError
  | .ptup l => .ok l.length
  | .pobj o => .ok o.length
  | .plist l => .ok l.length

/-- `list(v.values())`; any non-dict receiver raises `AttributeError`. -/
def pyValues : PyV → Except PyErr (List PyV)
  | .pobj o => .ok (o.map Prod.snd)
  | _ => .error .attrError

/-- `v.items()`; any non-dict receiver raises `AttributeError`. -/
def pyItems : PyV → Except PyErr Obj
  | .pobj o => .ok o
  | _ => .error .attrError

/-- A dict key rendered back as the Python value it iterates as. -/
def keyToVal : PyKey → PyV
  | .ks s => .pstr s
  | .knone => .pnone
  | .ktup l => .ptup l

/-- A Python value used as a dict key: strings, `None` and tuples are
hashable; dicts and lists raise `TypeError` (unhashable). -/
def valToKey : PyV → Except PyErr PyKey
  | .pstr s => .ok (.ks s)
  | .pnone => .ok .knone
  | .ptup l => .ok (.ktup l)
  | _ => .error .typeError

/-- `for x in v`: lists yield elements, dicts yield keys, tuples yield
elements, strings yield one-character strings, `None` raises
`TypeError`. -/
def pyIter : PyV → Except PyErr (List PyV)
  | .plist l => .ok l
  | .pobj o => .ok (o.map (fun kv => keyToVal kv.1))
  | .ptup l => .ok (l.map .pstr)
  | .pstr s => .ok (s.toList.map (fun c => .pstr (String.mk [c])))
  | .pnone => .error .typeError

/-- Helper for `splitOnChar`: accumulate the current piece (reversed). -/
def splitOnCharGo (sep : Char) : List Char → List Char → List String
  | [], acc => [String.mk acc.reverse]
  | c :: cs, acc =>
    if c == sep then String.mk acc.reverse :: splitOnCharGo sep cs []
    else splitOnCharGo sep cs (c :: acc)

/-- `s.split(sep)` for a one-character separator, as used by the source
(`','` and `'\n'`): like Python, `"".split(sep) = [""]` and empty pieces
are kept. -/
def splitOnChar (sep : Char) (s : String) : List String :=
  splitOnCharGo sep s.toList []

/-- Is `sub` a contiguous segment of `l`? -/
def infixB (sub : List Char) : List Char → Bool
  | [] => sub.isEmpty
  | c :: cs => sub.isPrefixOf (c :: cs) || infixB sub cs

/-- `sub in s` substring containment. -/
def containsSub (s sub : String) : Bool :=
  infixB sub.toList s.toList

/-- `s.strip()`: remove leading and trailing whitespace. -/
def pyStrip (s : String) : String :=
  String.mk (((s.toList.dropWhile Char.isWhitespace).reverse.dropWhile
    Char.isWhitespace).reverse)

/-- `v.split(sep)` for a one-character separator; any non-string receiver
raises `AttributeError`. -/
def pySplit : PyV → Char → Except PyErr (List String)
  | .pstr s, sep => .ok (splitOnChar sep s)
  | _, _ => .error .attrError

/-- `key == x` where `key` is a dict key and `x` an arbitrary value
(Python `in` membership test over a list). -/
def keyEqVal : PyKey → PyV → Bool
  | .ks s, .pstr t => s = t
  | .knone, .pnone => true
  | .ktup l, .ptup m => l = m
  | _, _ => false

/-- `k in v` for a dict key `k`: dicts test key membership, lists and
tuples test element equality, strings test substring containment (only
for string keys; `None in "s"` raises `TypeError`). -/
def pyContainsKey : PyV → PyKey → Except PyErr Bool
  | .pobj o, k => .ok (objMem o k)
  | .plist l, k => .ok (l.any (keyEqVal k))
  | .ptup l, k => .ok (l.any (fun s => k = .ks s))
  | .pstr s, .ks sub => .ok (containsSub s sub)
  | .pstr _, _ => .error .typeError
  | .pnone, _ => .error .typeError

/-- `s.strip('*')`: remove leading and trailing `*` characters. -/
def stripStar (s : String) : String :=
  String.mk (((s.toList.dropWhile (· == '*')).reverse.dropWhile (· == '*')).reverse)

/-- The receiver of `.update(...)` must be a dict; `AttributeError`
otherwise. -/
def asObjAttr : PyV → Except PyErr Obj
  | .pobj o => .ok o
  | _ => .error .attrError

/-- The argument of `dict.update(...)` must be a mapping; non-mappings are
treated as `TypeError` (the CPython corner where an iterable of
2-character strings would be accepted is outside the modelled domain). -/
def updArg : PyV → Except PyErr Obj
  | .pobj o => .ok o
  | _ => .error .typeError

/-- `next(iter(d))`: first key of a dict, `StopIteration` when empty. -/
def firstKey : Obj → Except PyErr PyKey
  | [] => .error .stopIteration
  | (k, _) :: _ => .ok k

/-- `d[next(iter(d))]`: first value of a dict, `StopIteration` when
empty. -/
def firstVal : Obj → Except PyErr PyV
  | [] => .error .stopIteration
  | (_, v) :: _ => .ok v

/-- Minimum length among a list of lists (`zip` truncates to this). -/
def minLen : List (List String) → Nat
  | [] => 0
  | [l] => l.length
  | l :: rest => min l.length (minLen rest)

/-- `list(zip(*ls))`: transpose truncating at the shortest list.  The
`i`-th output tuple collects the `i`-th element of every input list. -/
def pyZipStar (ls : List (List String)) : List (List String) :=
  (List.range (minLen ls)).map (fun i => ls.map (fun l => l.getD i ""))

/-- The `for i, _dict in enumerate(raw_header): out_d[element_name][_dict.get(self.header_text_key)] = rows[i]`
loop of `xml_to_dict` (main.py lines 127-128), walking header cells and
transposed rows in lockstep.  `.get` on a non-dict header cell raises
`AttributeError`; a missing text key yields the `None` dict key. -/
def headerLoop (K : Keys) : List PyV → List (List String) → Obj → Except PyErr Obj
  | [], _, acc => .ok acc
  | cell :: cs, rows, acc => do
    let textOpt ← (match cell with
      | .pobj o => .ok (objLookup o (.ks K.headerTextKey))
      | _ => .error .attrError)
    let colKey ← (match textOpt with
      | some v => valToKey v
      | none => .ok .knone)
    match rows with
    | r :: rs => headerLoop K cs rs (objAssign acc colKey (.ptup r))
    | [] => .error .indexError

/-- The bottom branch of `xml_to_dict` (main.py lines 120-132): the node
contains the data key, so extract its table.  Mirrors the source line by
line: name the element, create its empty entry, fetch the raw header,
and when both the data text and the header are truthy split and transpose
the rows, populate the columns only when the transposed row count equals
the header-cell count, and always emit the mismatch diagnostic (the
source has no `else` before the `self._print` at line 130). -/
def tableExtract (K : Keys) (kvs : Obj) (out_d : Obj) :
    Except PyErr (Obj × List Diag) := do
  let nameV ← pyItem (.pobj kvs) (.ks K.nameKey)
  let nameKy ← valToKey nameV
  let out1 := objAssign out_d nameKy (.pobj [])
  let h1 ← pyGetD (.pobj kvs) (.ks K.headerKey) (.pobj [])
  let rawHeader ← pyGetD h1 (.ks K.tableKey) (.plist [])
  let dataV := (objLookup kvs (.ks K.dataKey)).getD .pnone
  if dataV.truthy && rawHeader.truthy then do
    let lines ← pySplit dataV '\n'
    let rows := pyZipStar (lines.map (splitOnChar ','))
    let hcells ← pyIter rawHeader
    let out2 ← (if rows.length = hcells.length then do
        let inner ← headerLoop K hcells rows []
        pure (objAssign out1 nameKy (.pobj inner))
      else pure out1)
    let missing := if rows.length < hcells.length then K.dataKey else K.headerKey
    pure (out2, [Diag.headerRowsMismatch nameKy missing])
  else
    pure (out1, [])

/-- `self.data_key in in_d` for a non-dict `in_d` followed by the failing
access: a positive substring/membership test reaches the string-indexing
`TypeError` of line 121, a negative one reaches the `.items()`
`AttributeError` of line 134. -/
def nonDictCase (K : Keys) (v : PyV) : Except PyErr (Obj × List Diag) := do
  let c ← pyContainsKey v (.ks K.dataKey)
  if c then .error .typeError else .error .attrError

mutual

/-- `XmlParser.xml_to_dict` (main.py lines 119-152), with explicit fuel.
At a node holding the data key it extracts a table; otherwise it walks
the entries, recursing into dict values (merging under the first output
key when the node carries the name key), folding list values into one
combined dict keyed by the shared tag, and recording truthy scalars as
empty-dict marker keys. -/
def xml_to_dict (K : Keys) : Nat → PyV → Obj → Except PyErr (Obj × List Diag)
  | _, .pstr s, _ => nonDictCase K (.pstr s)
  | _, .pnone, _ => nonDictCase K .pnone
  | _, .ptup l, _ => nonDictCase K (.ptup l)
  | _, .plist l, _ => nonDictCase K (.plist l)
  | n, .pobj kvs, out_d =>
    if objMem kvs (.ks K.dataKey) then
      tableExtract K kvs out_d
    else
      match n with
      | 0 => .error .fuelExhausted
      | n + 1 => goEntries K n kvs (objMem kvs (.ks K.nameKey)) out_d []

/-- The `for key, value in in_d.items()` loop of `xml_to_dict`
(main.py lines 134-150). `hasName` caches `self.name_key in in_d`. -/
def goEntries (K : Keys) (n : Nat) (entries : List (PyKey × PyV))
    (hasName : Bool) (out : Obj) (ds : List Diag) :
    Except PyErr (Obj × List Diag) :=
  match entries, n with
  | [], _ => .ok (out, ds)
  | _ :: _, 0 => .error .fuelExhausted
  | (k, v) :: rest, n + 1 =>
    match v with
    | .pobj inner => do
      let (sub, d1) ← xml_to_dict K n (.pobj inner) []
      let out' ← (if hasName then do
          let fk ← firstKey out
          let cv ← asObjAttr ((objLookup out fk).getD .pnone)
          pure (objAssign out fk (.pobj (objAssign cv k (.pobj sub))))
        else pure (objAssign out k (.pobj sub)))
      goEntries K n rest hasName out' (ds ++ d1)
    | .plist items => do
      let (accObj, d1) ← goItems K n items [] []
      let dictList : Obj := [(k, .pobj accObj)]
      let out' ← (if !out.isEmpty then do
          let fk ← firstKey out
          let cv ← asObjAttr ((objLookup out fk).getD .pnone)
          pure (objAssign out fk (.pobj (objUpdate cv dictList)))
        else pure (objUpdate out dictList))
      goEntries K n rest hasName out' (ds ++ d1)
    | other =>
      if other.truthy then
        match valToKey other with
        | .ok k2 => goEntries K n rest hasName (objAssign out k2 (.pobj [])) ds
        | .error e => .error e
      else goEntries K n rest hasName out ds

/-- The `for v in value: dict_list[key].update(self.xml_to_dict(v, {}))`
loop of `xml_to_dict` (main.py lines 143-144). -/
def goItems (K : Keys) (n : Nat) (items : List PyV) (acc : Obj)
    (ds : List Diag) : Except PyErr (Obj × List Diag) :=
  match items, n with
  | [], _ => .ok (acc, ds)
  | _ :: _, 0 => .error .fuelExhausted
  | v :: rest, n + 1 => do
    let (r, d1) ← xml_to_dict K n v []
    goItems K n rest (objUpdate acc r) (ds ++ d1)

end

/-- A call of `xml_to_dict` that omits the `out_d` argument.  CPython
evaluates the default `{}` once at function definition time, so all such
calls share one dict object; the call mutates it and returns the very
same object.  `shared` is that object's state before the call; the call
returns the result and the new shared state, which coincide. -/
def xmlToDictDefaulted (K : Keys) (fuel : Nat) (shared : Obj) (in_d : PyV) :
    Except PyErr (Obj × Obj) :=
  match xml_to_dict K fuel in_d shared with
  | .ok (r, _) => .ok (r, r)
  | .error e => .error e

/-- The `for key in raw_keys` loop of `format_dict._process_payload`
(main.py lines 195-213), with the loop state `(wild_list, valid_keys,
root_key, payload_copy)` threaded explicitly.  `break` returns the
current state. -/
def processPayloadGo : List String → Bool → List String → String → PyV →
    Except PyErr (String × List String × PyV)
  | [], _, vks, rk, pc => .ok (rk, vks, pc)
  | key :: rest, wildList, vks, rk, pc =>
    if containsSub key "*" then do
      let wildKey := stripStar key
      let wildDict ← pyGetD pc (.ks wildKey) (.pobj [])
      if !wildDict.truthy then .ok (rk, vks, pc)
      else do
        let len ← pyLen wildDict
        if len = 1 then do
          let vals ← pyValues wildDict
          match vals.getLast? with
          | some last => processPayloadGo rest wildList vks rk last
          | none => .error .indexError
        else
          processPayloadGo rest true vks rk wildDict
    else
      let rk' := if rk = "" then key else rk
      if !wildList then processPayloadGo rest wildList (vks ++ [key]) rk' pc
      else processPayloadGo rest false vks rk' pc

/-- `format_dict._process_payload` (main.py lines 190-214).  The
`deepcopy` of the payload is the identity in this pure model. -/
def process_payload (rawKeys : List String) (payload : PyV) :
    Except PyErr (String × List String × PyV) :=
  processPayloadGo rawKeys false [] "" payload

/-- `format_dict._get_dict_values` (main.py lines 216-219): sequential
`d = d[key]` lookups. -/
def get_dict_values : PyV → List String → Except PyErr PyV
  | d, [] => .ok d
  | d, key :: rest => do
    let d' ← pyItem d (.ks key)
    get_dict_values d' rest

/-- `format_dict._populate_dict` (main.py lines 221-231): look the path
up, apply the key filter when one is recorded for this table name, and
catch only `KeyError` (emitting the resource diagnostic and returning the
empty dict). -/
def populate_dict (targets : Obj) (key : PyKey) (validKeys : List String)
    (subPayload : PyV) : Except PyErr (PyV × List Diag) :=
  match get_dict_values subPayload validKeys with
  | .error .keyError => .ok (.pobj [], [.resourceUnavailable validKeys])
  | .error e => .error e
  | .ok tmp =>
    if objMem targets key then do
      let subKeysRaw ← pySplit ((objLookup targets key).getD (.pstr "")) ','
      let subKeys := subKeysRaw.map pyStrip
      let items ← pyItems tmp
      .ok (.pobj (items.filter (fun kv => match kv.1 with
        | .ks s => subKeys.contains s
        | _ => false)), [])
    else .ok (tmp, [])

/-- `for child in children`: dict keys, list/tuple elements (hashed for
the `config.get(child, [])` lookup), characters of a string. -/
def childIter : PyV → Except PyErr (List PyKey)
  | .pobj o => .ok (o.map Prod.fst)
  | .plist l => l.mapM valToKey
  | .ptup l => .ok (l.map .ks)
  | .pstr s => .ok (s.toList.map (fun c => .ks (String.mk [c])))
  | .pnone => .error .typeError

mutual

/-- The `for key, value in config.items()` loop of
`format_dict._summarize` (main.py lines 234-259).  `t` is
`self._target_keys_dict`, `fc` is `self._config` (consulted by the child
recursion via `config.get(child, [])`), `entries` the dict being
iterated, `parents` the tree level, `payload` the flattened dict. -/
def sEntries (t fc : Obj) (n : Nat) (entries : Obj) (parents payload : PyV)
    (out : Obj) (ds : List Diag) : Except PyErr (Obj × List Diag) :=
  match entries, n with
  | [], _ => .ok (out, ds)
  | _ :: _, 0 => .error .fuelExhausted
  | (key, value) :: rest, n + 1 => do
    let mem ← pyContainsKey parents key
    if !mem then sEntries t fc n rest parents payload out ds
    else do
      let out1 := objAssign out key (.pobj [])
      let children ← pyGetD parents key (.pobj [])
      let paths ← pyIter value
      let (out2, ds2) ← sPaths t fc n key children paths payload out1 ds
      sEntries t fc n rest parents payload out2 ds2

/-- The `for path in value` loop of `format_dict._summarize`
(main.py lines 239-259): split the path, branch on the wildcard marker,
and merge the resolved keys into `out_d[key]`. -/
def sPaths (t fc : Obj) (n : Nat) (key : PyKey) (children : PyV)
    (paths : List PyV) (payload : PyV) (out : Obj) (ds : List Diag) :
    Except PyErr (Obj × List Diag) :=
  match paths, n with
  | [], _ => .ok (out, ds)
  | _ :: _, 0 => .error .fuelExhausted
  | path :: rest, n + 1 =>
    match path with
    | .pstr p =>
      let rawKeys := splitOnChar ',' p
      if containsSub p "*" then do
        let (rootKey, validKeys, subPayload) ← process_payload rawKeys payload
        if validKeys.isEmpty && rootKey = "" then
          sPaths t fc n key children rest payload out
            (ds ++ [.keyResourceUnavailable key])
        else do
          let rkv ← pyGetOpt subPayload (.ks rootKey)
          if truthyOpt rkv then do
            let (tmp, pd) ← populate_dict t key validKeys subPayload
            let curv ← pyItem (.pobj out) key
            let curo ← asObjAttr curv
            let tmpo ← updArg tmp
            let out' := objAssign out key (.pobj (objUpdate curo tmpo))
            sPaths t fc n key children rest payload out' (ds ++ pd)
          else do
            let validKeys' := rootKey :: validKeys
            let insts ← pyItems subPayload
            let (out', ds') ← sInstances t fc n key children validKeys' insts out ds
            sPaths t fc n key children rest payload out' ds'
      else do
        let (tmp, pd) ← populate_dict t key rawKeys payload
        let curv ← pyItem (.pobj out) key
        let curo ← asObjAttr curv
        let tmpo ← updArg tmp
        let out' := objAssign out key (.pobj (objUpdate curo tmpo))
        sPaths t fc n key children rest payload out' (ds ++ pd)
    | _ => .error .attrError

/-- The `for k, v in sub_payload.items()` loop of
`format_dict._summarize` (main.py lines 251-255): one output instance per
wildcard child, populated from that child's own sub-payload and extended
with every child table's recursive summary. -/
def sInstances (t fc : Obj) (n : Nat) (key : PyKey) (children : PyV)
    (vks : List String) (insts : Obj) (out : Obj) (ds : List Diag) :
    Except PyErr (Obj × List Diag) :=
  match insts, n with
  | [], _ => .ok (out, ds)
  | _ :: _, 0 => .error .fuelExhausted
  | (k, v) :: restI, n + 1 => do
    let curv ← pyItem (.pobj out) key
    let curo ← (match curv with
      | .pobj o => Except.ok o
      | _ => Except.error PyErr.typeError)
    let cur1 := objAssign curo k (.pobj [])
    let (tmp, pd) ← populate_dict t key vks v
    let innerv ← pyItem (.pobj cur1) k
    let innero ← asObjAttr innerv
    let tmpo ← updArg tmp
    let inner1 := objUpdate innero tmpo
    let childKeys ← childIter children
    let (inner2, ds2) ← sChildren t fc n childKeys children v inner1 (ds ++ pd)
    let out' := objAssign out key (.pobj (objAssign cur1 k (.pobj inner2)))
    sInstances t fc n key children vks restI out' ds2

/-- The `for child in children` loop of `format_dict._summarize`
(main.py lines 254-255): recursively summarize each child table against
this instance's sub-payload and merge the result into the instance. -/
def sChildren (t fc : Obj) (n : Nat) (childNames : List PyKey)
    (children v : PyV) (acc : Obj) (ds : List Diag) :
    Except PyErr (Obj × List Diag) :=
  match childNames, n with
  | [], _ => .ok (acc, ds)
  | _ :: _, 0 => .error .fuelExhausted
  | child :: restC, n + 1 => do
    let cfgVal := (objLookup fc child).getD (.plist [])
    let (res, d2) ← sEntries t fc n [(child, cfgVal)] children v [] []
    let acc' := objUpdate acc res
    sChildren t fc n restC children v acc' (ds ++ d2)

end

/-- `XmlParser.format_dict` (main.py lines 188-263):
`_summarize(self._config, self._tree_config, payload)`. -/
def format_dict (t : Obj) (fuel : Nat) (config : Obj) (treeConfig : PyV)
    (payload : PyV) : Except PyErr (Obj × List Diag) :=
  sEntries t config fuel config treeConfig payload [] []

/-- The `for k, v in d.items()` loop of `process_config._set_target_keys`
(main.py lines 268-271): record the directive for `k` and recurse into
`v` only when `v` is a dict whose own `keys_idn` entry is truthy. -/
def setTargetKeysGo (K : Keys) : Nat → List (PyKey × PyV) → Obj →
    Except PyErr Obj
  | _, [], acc => .ok acc
  | 0, _ :: _, _ => .error .fuelExhausted
  | n + 1, (k, v) :: rest, acc =>
    match v with
    | .pobj inner =>
      if ((objLookup inner (.ks K.keysIdn)).getD (.pstr "")).truthy then do
        let dval := (objLookup inner (.ks K.keysIdn)).getD .pnone
        let acc1 := objAssign acc k dval
        let acc2 ← setTargetKeysGo K n inner acc1
        setTargetKeysGo K n rest acc2
      else setTargetKeysGo K n rest acc
    | _ => setTargetKeysGo K n rest acc

/-- `process_config._set_target_keys` (main.py lines 267-271), starting
from the empty `self._target_keys_dict`; `.items()` on a non-dict raises
`AttributeError`. -/
def set_target_keys (K : Keys) (fuel : Nat) : PyV → Except PyErr Obj
  | .pobj kvs => setTargetKeysGo K fuel kvs []
  | _ => .error .attrError

mutual

/-- `process_config._prune_tree` (main.py lines 273-279): drop every
`keys_idn` entry at every dict depth, recurse into lists, return
scalars unchanged. -/
def prune_tree (K : Keys) : Nat → PyV → Except PyErr PyV
  | _, .pstr s => .ok (.pstr s)
  | _, .pnone => .ok .pnone
  | _, .ptup l => .ok (.ptup l)
  | 0, .pobj _ => .error .fuelExhausted
  | 0, .plist _ => .error .fuelExhausted
  | n + 1, .pobj kvs => do
    let kvs' ← pruneObj K n kvs
    .ok (.pobj kvs')
  | n + 1, .plist l => do
    let l' ← pruneList K n l
    .ok (.plist l')

/-- The dict comprehension of `_prune_tree` (main.py line 275). -/
def pruneObj (K : Keys) : Nat → List (PyKey × PyV) →
    Except PyErr (List (PyKey × PyV))
  | _, [] => .ok []
  | 0, _ :: _ => .error .fuelExhausted
  | n + 1, (k, v) :: rest =>
    if k = .ks K.keysIdn then pruneObj K n rest
    else do
      let v' ← prune_tree K n v
      let rest' ← pruneObj K n rest
      .ok ((k, v') :: rest')

/-- The list comprehension of `_prune_tree` (main.py line 277). -/
def pruneList (K : Keys) : Nat → List PyV → Except PyErr (List PyV)
  | _, [] => .ok []
  | 0, _ :: _ => .error .fuelExhausted
  | n + 1, v :: rest => do
    let v' ← prune_tree K n v
    let rest' ← pruneList K n rest
    .ok (v' :: rest')

end

/-- `XmlParser.process_config` (main.py lines 265-286) on an
already-loaded configuration value: extract the raw tree under the tree
identifier, prune it, and collect the target-keys directives.  Returns
`(raw tree, pruned tree, target keys)`. -/
def process_config (K : Keys) (fuel : Nat) (config : PyV) :
    Except PyErr (PyV × PyV × Obj) := do
  let raw ← pyGetD config (.ks K.treeIdn) (.pobj [])
  let tree ← prune_tree K fuel raw
  let targets ← set_target_keys K fuel raw
  .ok (raw, tree, targets)

/-- The `parser_type` validation of `XmlParser.__init__` and the
`parser_type` property setter (main.py lines 57-58 and 94-95): anything
outside `raw`/`custom` raises `ValueError`. -/
def parserTypeCheck (pt : String) : Except PyErr Unit :=
  if pt = "raw" || pt = "custom" then .ok () else .error .valueError

/-- `XmlParser.parse` (main.py lines 288-315) on already-loaded file
contents: `config` is the loaded configuration value and `xmlDoc` the
raw-parsed XML value (`load_file` itself catches its own exceptions and
is an external collaborator).  `process_config` runs outside any `try`;
the first `try` covers flattening (returning `{}` on failure), the
second covers `format_dict` (falling back to the unformatted dict). -/
def parse (K : Keys) (fuel : Nat) (parserType : String) (config : PyV)
    (xmlDoc : PyV) : Except PyErr PyV := do
  let pc ← process_config K fuel config
  let tree := pc.2.1
  let targets := pc.2.2
  if parserType = "raw" then .ok xmlDoc
  else
    match xml_to_dict K fuel xmlDoc [] with
    | .error _ => .ok (.pobj [])
    | .ok (unf, _) =>
      if !tree.truthy then .ok (.pobj unf)
      else
        match (do
            let first ← firstVal unf
            let cfgEntries ← pyItems config
            sEntries targets cfgEntries fuel cfgEntries tree first [] []) with
        | .error _ => .ok (.pobj unf)
        | .ok (fd, _) => .ok (.pobj fd)

/-- The net effect of `root_key = root_key or key` folded over a list of
non-wildcard segments. -/
def rootFold : String → List String → String
  | rk, [] => rk
  | rk, k :: ks => rootFold (if rk = "" then k else rk) ks

/-! ### Reduction lemmas for the fueled loops -/

theorem bindOk {e α β : Type} (a : α) (f : α → Except e β) :
    (Except.ok a >>= f : Except e β) = f a := rfl

theorem bindErr {e α β : Type} (err : e) (f : α → Except e β) :
    (Except.error err >>= f : Except e β) = Except.error err := rfl

theorem objUpdate_nil (d : Obj) : objUpdate d [] = d := rfl

theorem sPaths_nil (t fc : Obj) (n : Nat) (key : PyKey) (children payload : PyV)
    (out : Obj) (ds : List Diag) :
    sPaths t fc n key children [] payload out ds = .ok (out, ds) := by
  cases n <;> rfl

theorem sEntries_nil (t fc : Obj) (n : Nat) (parents payload : PyV)
    (out : Obj) (ds : List Diag) :
    sEntries t fc n [] parents payload out ds = .ok (out, ds) := by
  cases n <;> rfl

theorem sInstances_nil (t fc : Obj) (n : Nat) (key : PyKey) (children : PyV)
    (vks : List String) (out : Obj) (ds : List Diag) :
    sInstances t fc n key children vks [] out ds = .ok (out, ds) := by
  cases n <;> rfl

theorem sChildren_nil (t fc : Obj) (n : Nat) (children v : PyV)
    (acc : Obj) (ds : List Diag) :
    sChildren t fc n [] children v acc ds = .ok (acc, ds) := by
  cases n <;> rfl

theorem goEntries_nil (K : Keys) (n : Nat) (hasName : Bool) (out : Obj)
    (ds : List Diag) : goEntries K n [] hasName out ds = .ok (out, ds) := by
  cases n <;> rfl

theorem goItems_nil (K : Keys) (n : Nat) (acc : Obj) (ds : List Diag) :
    goItems K n [] acc ds = .ok (acc, ds) := by
  cases n <;> rfl

/-! ### Association-list dictionary lemmas -/

theorem objLookup_assign (d : Obj) (k' : PyKey) (v : PyV) (k : PyKey) :
    objLookup (objAssign d k' v) k =
      if k' = k then some v else objLookup d k := by
  induction d with
  | nil => simp [objAssign, objLookup]
  | cons kv rest ih =>
    obtain ⟨k0, v0⟩ := kv
    simp only [objAssign]
    by_cases h0 : k0 = k'
    · rw [if_pos h0]
      by_cases hk : k' = k
      · simp [objLookup, hk]
      · have hk0 : ¬ k0 = k := fun h => hk ((h0.symm.trans h))
        simp [objLookup, hk, hk0]
    · rw [if_neg h0]
      by_cases hk0 : k0 = k
      · have hk : ¬ k' = k := fun h => h0 (hk0.trans h.symm)
        simp [objLookup, hk0, hk]
      · simp [objLookup, hk0, ih]

theorem objLookup_assign_self (d : Obj) (k : PyKey) (v : PyV) :
    objLookup (objAssign d k v) k = some v := by
  simp [objLookup_assign]

theorem objAssign_self_of_lookup (d : Obj) (k : PyKey) (v : PyV)
    (h : objLookup d k = some v) : objAssign d k v = d := by
  induction d with
  | nil => simp [objLookup] at h
  | cons kv rest ih =>
    obtain ⟨k0, v0⟩ := kv
    simp only [objLookup] at h
    simp only [objAssign]
    by_cases he : k0 = k
    · rw [if_pos he] at h
      cases h
      simp [he]
    · rw [if_neg he] at h
      simp [he, ih h]

theorem objLookup_eq_none_iff (d : Obj) (k : PyKey) :
    objLookup d k = none ↔ k ∉ d.map Prod.fst := by
  induction d with
  | nil => simp [objLookup]
  | cons kv rest ih =>
    obtain ⟨k0, v0⟩ := kv
    simp only [objLookup, List.map_cons, List.mem_cons]
    by_cases he : k0 = k
    · subst he
      simp
    · have hne : ¬ k = k0 := fun h => he h.symm
      simp [he, ih, hne]

theorem objAssign_append_of_not_mem (d : Obj) (k : PyKey) (v : PyV)
    (h : k ∉ d.map Prod.fst) : objAssign d k v = d ++ [(k, v)] := by
  induction d with
  | nil => simp [objAssign]
  | cons kv rest ih =>
    obtain ⟨k0, v0⟩ := kv
    simp only [List.map_cons, List.mem_cons] at h
    push_neg at h
    have hne : ¬ k0 = k := fun he => h.1 he.symm
    simp only [objAssign, if_neg hne]
    simp [ih h.2]

theorem objAssign_assign (d : Obj) (k : PyKey) (v w : PyV) :
    objAssign (objAssign d k v) k w = objAssign d k w := by
  induction d with
  | nil => simp [objAssign]
  | cons kv rest ih =>
    obtain ⟨k0, v0⟩ := kv
    simp only [objAssign]
    by_cases he : k0 = k
    · rw [if_pos he]
      simp [objAssign, he]
    · rw [if_neg he]
      simp only [objAssign, if_neg he]
      simp [ih]

theorem objMem_assign (d : Obj) (k k' : PyKey) (v : PyV)
    (h : objMem d k = true) : objMem (objAssign d k' v) k = true := by
  simp only [objMem, objLookup_assign]
  split
  · simp
  · exact h

theorem objMem_update (o : Obj) : ∀ (d : Obj) (k : PyKey),
    objMem d k = true → objMem (objUpdate d o) k = true := by
  induction o with
  | nil => intro d k h; simpa [objUpdate]
  | cons kv rest ih =>
    intro d k h
    have : objUpdate d (kv :: rest) = objUpdate (objAssign d kv.1 kv.2) rest := by
      simp [objUpdate]
    rw [this]
    exact ih _ _ (objMem_assign _ _ _ _ h)

theorem objUpdate_append_of_fresh : ∀ (o d : Obj),
    (∀ k ∈ o.map Prod.fst, k ∉ d.map Prod.fst) → (o.map Prod.fst).Nodup →
    objUpdate d o = d ++ o := by
  intro o
  induction o with
  | nil => intro d _ _; simp [objUpdate]
  | cons kv rest ih =>
    intro d hfresh hnd
    obtain ⟨k, v⟩ := kv
    have hstep : objUpdate d ((k, v) :: rest) =
        objUpdate (objAssign d k v) rest := by
      simp [objUpdate]
    rw [hstep, objAssign_append_of_not_mem d k v (hfresh k (by simp))]
    simp only [List.map_cons, List.nodup_cons] at hnd
    rw [ih (d ++ [(k, v)])]
    · simp
    · intro k' hk'
      simp only [List.map_append, List.mem_append, List.map_cons,
        List.map_nil, List.mem_singleton]
      push_neg
      refine ⟨hfresh k' (by simp [hk']), ?_⟩
      intro he
      exact hnd.1 (he ▸ hk')
    · exact hnd.2

theorem rootFold_of_ne (ks : List String) : ∀ (rk : String), rk ≠ "" →
    rootFold rk ks = rk := by
  induction ks with
  | nil => intro rk _; rfl
  | cons k rest ih =>
    intro rk h
    simp only [rootFold, if_neg h]
    exact ih rk h

/-! ### Behaviour of `_process_payload` on star-free segment suffixes -/

theorem processPayloadGo_starFree (ks : List String) :
    ∀ (vks : List String) (rk : String) (pc : PyV),
    (∀ r ∈ ks, containsSub r "*" = false) →
    processPayloadGo ks false vks rk pc = .ok (rootFold rk ks, vks ++ ks, pc) := by
  induction ks with
  | nil => intro vks rk pc _; simp [processPayloadGo, rootFold]
  | cons k rest ih =>
    intro vks rk pc h
    have hk : containsSub k "*" = false := h k (by simp)
    simp only [processPayloadGo, hk, Bool.false_eq_true, if_false,
      Bool.not_false, if_true]
    rw [ih (vks ++ [k]) (if rk = "" then k else rk) pc
      (fun r hr => h r (by simp [hr]))]
    simp [rootFold]

theorem processPayloadGo_wildTrue (r0 : String) (rs : List String)
    (vks : List String) (rk : String) (pc : PyV)
    (h : containsSub r0 "*" = false) :
    processPayloadGo (r0 :: rs) true vks rk pc =
      processPayloadGo rs false vks (if rk = "" then r0 else rk) pc := by
  simp [processPayloadGo, h]

theorem processPayloadGo_collapse (key : String) (rest vks : List String)
    (rk : String) (wl : Bool) (po : Obj) (ck : PyKey) (cv : PyV)
    (hk : containsSub key "*" = true)
    (hw : objLookup po (.ks (stripStar key)) = some (.pobj [(ck, cv)])) :
    processPayloadGo (key :: rest) wl vks rk (.pobj po) =
      processPayloadGo rest wl vks rk cv := by
  simp only [processPayloadGo, hk, if_true, pyGetD, hw, Option.getD_some]
  rfl

theorem processPayloadGo_multi (key : String) (rest vks : List String)
    (rk : String) (wl : Bool) (po insts : Obj)
    (hk : containsSub key "*" = true)
    (hw : objLookup po (.ks (stripStar key)) = some (.pobj insts))
    (hne : insts.isEmpty = false)
    (hlen1 : ¬ insts.length = 1) :
    processPayloadGo (key :: rest) wl vks rk (.pobj po) =
      processPayloadGo rest true vks rk (.pobj insts) := by
  simp only [processPayloadGo, hk, if_true, pyGetD, hw, Option.getD_some]
  show (if (!(PyV.pobj insts).truthy) = true then Except.ok (rk, vks, PyV.pobj po)
    else if insts.length = 1 then
      match (insts.map Prod.snd).getLast? with
      | some last => processPayloadGo rest wl vks rk last
      | none => Except.error PyErr.indexError
    else processPayloadGo rest true vks rk (.pobj insts)) =
    processPayloadGo rest true vks rk (.pobj insts)
  simp [PyV.truthy, hne, hlen1]

/-! ### The header-population loop builds the header-order zip -/

theorem headerLoop_append (K : Keys) (cells : List PyV) :
    ∀ (texts : List String) (rows : List (List String)) (acc : Obj),
    List.Forall₂ (fun c t => ∃ o, c = PyV.pobj o ∧
      objLookup o (.ks K.headerTextKey) = some (.pstr t)) cells texts →
    rows.length = cells.length →
    (acc.map Prod.fst ++ texts.map PyKey.ks).Nodup →
    headerLoop K cells rows acc =
      .ok (acc ++ (texts.map PyKey.ks).zip (rows.map PyV.ptup)) := by
  induction cells with
  | nil =>
    intro texts rows acc hf _ _
    cases hf
    simp [headerLoop]
  | cons c cs ih =>
    intro texts rows acc hf hlen hnd
    cases hf with
    | cons hct hcs =>
      obtain ⟨o, rfl, hlook⟩ := hct
      cases rows with
      | nil => simp at hlen
      | cons r rs =>
        rename_i t ts
        simp only [headerLoop, hlook]
        have hfresh : PyKey.ks t ∉ acc.map Prod.fst := by
          rw [List.nodup_append] at hnd
          exact fun hmem => hnd.2.2 hmem (by simp)
        show headerLoop K cs rs (objAssign acc (PyKey.ks t) (PyV.ptup r)) =
          Except.ok (acc ++ (List.map PyKey.ks (t :: ts)).zip
            (List.map PyV.ptup (r :: rs)))
        rw [ih ts rs (objAssign acc (PyKey.ks t) (PyV.ptup r)) hcs
          (by simpa using hlen)
          (by
            rw [objAssign_append_of_not_mem _ _ _ hfresh]
            simpa [List.append_assoc] using hnd)]
        rw [objAssign_append_of_not_mem _ _ _ hfresh]
        simp

/-! ### The instance loop emits one output key per wildcard instance -/

theorem sInstances_childless (t fc : Obj) (key : PyKey) (vks : List String) :
    ∀ (insts : Obj) (n : Nat) (out : Obj) (ds : List Diag) (cur : Obj),
    insts.length ≤ n →
    ((cur.map Prod.fst) ++ (insts.map Prod.fst)).Nodup →
    objLookup out key = some (.pobj cur) →
    (∀ kv ∈ insts, ∃ o pd, populate_dict t key vks kv.2 = .ok (.pobj o, pd)) →
    ∃ curF dsF, sInstances t fc n key (.pobj []) vks insts out ds =
        .ok (objAssign out key (.pobj curF), dsF) ∧
      curF.map Prod.fst = cur.map Prod.fst ++ insts.map Prod.fst := by
  intro insts
  induction insts with
  | nil =>
    intro n out ds cur _ _ hlook _
    refine ⟨cur, ds, ?_, by simp⟩
    have := objAssign_self_of_lookup out key (.pobj cur) hlook
    rw [sInstances_nil, this]
  | cons kv rest ih =>
    intro n out ds cur hn hnd hlook hpop
    obtain ⟨k, v⟩ := kv
    cases n with
    | zero => simp at hn
    | succ m =>
      obtain ⟨o, pd, hpopkv⟩ := hpop (k, v) (by simp)
      have hfresh : k ∉ cur.map Prod.fst := by
        rw [List.nodup_append] at hnd
        exact fun hmem => hnd.2.2 hmem (by simp)
      simp only [sInstances, pyItem, hlook, hpopkv, objLookup_assign_self,
        bindOk, asObjAttr, updArg, childIter, List.map_nil, sChildren_nil]
      show ∃ curF dsF,
        sInstances t fc m key (PyV.pobj []) vks rest
          (objAssign out key (PyV.pobj (objAssign (objAssign cur k (PyV.pobj [])) k
            (PyV.pobj (objUpdate [] o))))) (ds ++ pd) =
          Except.ok (objAssign out key (PyV.pobj curF), dsF) ∧
        List.map Prod.fst curF = List.map Prod.fst cur ++
          List.map Prod.fst ((k, v) :: rest)
      rw [objAssign_assign, objAssign_append_of_not_mem _ _ _ hfresh]
      obtain ⟨curF, dsF, hrun, hkeys⟩ := ih m
        (objAssign out key (PyV.pobj (cur ++ [(k, PyV.pobj (objUpdate [] o))])))
        (ds ++ pd) (cur ++ [(k, PyV.pobj (objUpdate [] o))])
        (by simpa using hn)
        (by simpa [List.append_assoc] using hnd)
        (objLookup_assign_self _ _ _)
        (fun kv hkv => hpop kv (by simp [hkv]))
      refine ⟨curF, dsF, ?_, ?_⟩
      · rw [hrun, objAssign_assign]
      · rw [hkeys]
        simp

/-! ### Key preservation: `xml_to_dict` never deletes accumulator keys -/

theorem nonDictCase_ne_ok (K : Keys) (v : PyV) (x : Obj × List Diag)
    (h : nonDictCase K v = .ok x) : False := by
  simp only [nonDictCase] at h
  cases hc : pyContainsKey v (.ks K.dataKey) with
  | error e => rw [hc, bindErr] at h; cases h
  | ok c =>
    rw [hc, bindOk] at h
    cases c <;> simp at h

theorem tableExtract_mem (K : Keys) (kvs out r : Obj) (ds : List Diag)
    (k : PyKey) (h : tableExtract K kvs out = .ok (r, ds))
    (hmem : objMem out k = true) : objMem r k = true := by
  simp only [tableExtract] at h
  cases h1 : pyItem (.pobj kvs) (.ks K.nameKey) with
  | error e => rw [h1, bindErr] at h; cases h
  | ok nameV =>
    rw [h1, bindOk] at h
    cases h2 : valToKey nameV with
    | error e => rw [h2, bindErr] at h; cases h
    | ok nameKy =>
      rw [h2, bindOk] at h
      rw [show pyGetD (.pobj kvs) (.ks K.headerKey) (.pobj []) =
        .ok ((objLookup kvs (.ks K.headerKey)).getD (.pobj [])) from rfl,
        bindOk] at h
      cases h3 : pyGetD ((objLookup kvs (.ks K.headerKey)).getD (.pobj []))
          (.ks K.tableKey) (.plist []) with
      | error e => rw [h3, bindErr] at h; cases h
      | ok rawHeader =>
        rw [h3, bindOk] at h
        split at h
        · cases h4 : pySplit ((objLookup kvs (.ks K.dataKey)).getD .pnone) '\n' with
          | error e => rw [h4, bindErr] at h; cases h
          | ok lines =>
            rw [h4, bindOk] at h
            cases h5 : pyIter rawHeader with
            | error e => rw [h5, bindErr] at h; cases h
            | ok hcells =>
              rw [h5, bindOk] at h
              split at h
              · cases h6 : headerLoop K hcells
                    (pyZipStar (lines.map (splitOnChar ','))) [] with
                | error e => rw [h6, bindErr] at h; cases h
                | ok inner =>
                  rw [h6, bindOk, pure_bind] at h
                  cases h
                  exact objMem_assign _ _ _ _ (objMem_assign _ _ _ _ hmem)
              · rw [pure_bind] at h
                cases h
                exact objMem_assign _ _ _ _ hmem
        · cases h
          exact objMem_assign _ _ _ _ hmem

theorem goEntries_mem (K : Keys) (k : PyKey) :
    ∀ (entries : List (PyKey × PyV)) (n : Nat) (hn : Bool) (out : Obj)
    (ds : List Diag) (r : Obj) (ds' : List Diag),
    goEntries K n entries hn out ds = .ok (r, ds') →
    objMem out k = true → objMem r k = true := by
  intro entries
  induction entries with
  | nil =>
    intro n hn out ds r ds' h hmem
    rw [goEntries_nil] at h
    cases h
    exact hmem
  | cons kv rest ih =>
    intro n hn out ds r ds' h hmem
    obtain ⟨k0, v⟩ := kv
    cases n with
    | zero =>
      rw [show goEntries K 0 ((k0, v) :: rest) hn out ds =
        Except.error .fuelExhausted from rfl] at h
      cases h
    | succ m =>
      cases v with
      | pobj inner =>
        simp only [goEntries] at h
        cases hx : xml_to_dict K m (.pobj inner) [] with
        | error e => rw [hx, bindErr] at h; cases h
        | ok subp =>
          obtain ⟨sub, d1⟩ := subp
          rw [hx, bindOk] at h
          cases hn with
          | true =>
            cases out with
            | nil => simp [objMem, objLookup] at hmem
            | cons kv0 out' =>
              obtain ⟨fk, v0⟩ := kv0
              simp only [if_true, firstKey, bindOk] at h
              cases v0 with
              | pobj cvo =>
                simp only [objLookup, if_pos rfl, if_true, Option.getD_some,
                  asObjAttr, bindOk, pure_bind] at h
                exact ih m true _ _ r ds' h (objMem_assign _ _ _ _ hmem)
              | pstr s =>
                simp only [objLookup, if_pos rfl, if_true, Option.getD_some,
                  asObjAttr, bindErr] at h; cases h
              | pnone =>
                simp only [objLookup, if_pos rfl, if_true, Option.getD_some,
                  asObjAttr, bindErr] at h; cases h
              | ptup l =>
                simp only [objLookup, if_pos rfl, if_true, Option.getD_some,
                  asObjAttr, bindErr] at h; cases h
              | plist l =>
                simp only [objLookup, if_pos rfl, if_true, Option.getD_some,
                  asObjAttr, bindErr] at h; cases h
          | false =>
            simp only [Bool.false_eq_true, if_false, pure_bind] at h
            exact ih m false _ _ r ds' h (objMem_assign _ _ _ _ hmem)
      | plist items =>
        simp only [goEntries] at h
        cases hi : goItems K m items [] [] with
        | error e => rw [hi, bindErr] at h; cases h
        | ok accp =>
          obtain ⟨acc, d1⟩ := accp
          rw [hi, bindOk] at h
          cases out with
          | nil => simp [objMem, objLookup] at hmem
          | cons kv0 out' =>
            obtain ⟨fk, v0⟩ := kv0
            simp only [List.isEmpty_cons, Bool.not_false, if_true,
              firstKey, bindOk] at h
            cases v0 with
            | pobj cvo =>
              simp only [objLookup, if_pos rfl, if_true, Option.getD_some,
                asObjAttr, bindOk, pure_bind] at h
              exact ih m hn _ _ r ds' h (objMem_assign _ _ _ _ hmem)
            | pstr s =>
              simp only [objLookup, if_pos rfl, if_true, Option.getD_some,
                asObjAttr, bindErr] at h; cases h
            | pnone =>
              simp only [objLookup, if_pos rfl, if_true, Option.getD_some,
                asObjAttr, bindErr] at h; cases h
            | ptup l =>
              simp only [objLookup, if_pos rfl, if_true, Option.getD_some,
                asObjAttr, bindErr] at h; cases h
            | plist l =>
              simp only [objLookup, if_pos rfl, if_true, Option.getD_some,
                asObjAttr, bindErr] at h; cases h
      | pstr s =>
        simp only [goEntries, PyV.truthy] at h
        by_cases hs : s.isEmpty
        · simp only [hs, Bool.not_true, Bool.false_eq_true, if_false] at h
          exact ih m hn out ds r ds' h hmem
        · rw [Bool.not_eq_true] at hs
          simp only [hs, Bool.not_false, if_true, valToKey] at h
          exact ih m hn _ ds r ds' h (objMem_assign _ _ _ _ hmem)
      | pnone =>
        simp only [goEntries, PyV.truthy, Bool.false_eq_true, if_false] at h
        exact ih m hn out ds r ds' h hmem
      | ptup l =>
        simp only [goEntries, PyV.truthy] at h
        by_cases hl : l.isEmpty
        · simp only [hl, Bool.not_true, Bool.false_eq_true, if_false] at h
          exact ih m hn out ds r ds' h hmem
        · rw [Bool.not_eq_true] at hl
          simp only [hl, Bool.not_false, if_true, valToKey] at h
          exact ih m hn _ ds r ds' h (objMem_assign _ _ _ _ hmem)

theorem xmlToDict_mem (K : Keys) (fuel : Nat) (in_d : PyV) (st r : Obj)
    (ds : List Diag) (k : PyKey) (h : xml_to_dict K fuel in_d st = .ok (r, ds))
    (hmem : objMem st k = true) : objMem r k = true := by
  cases in_d with
  | pstr s =>
    rw [xml_to_dict.eq_def] at h
    exact absurd h (fun h => nonDictCase_ne_ok K _ _ h)
  | pnone =>
    rw [xml_to_dict.eq_def] at h
    exact absurd h (fun h => nonDictCase_ne_ok K _ _ h)
  | ptup l =>
    rw [xml_to_dict.eq_def] at h
    exact absurd h (fun h => nonDictCase_ne_ok K _ _ h)
  | plist l =>
    rw [xml_to_dict.eq_def] at h
    exact absurd h (fun h => nonDictCase_ne_ok K _ _ h)
  | pobj kvs =>
    rw [xml_to_dict.eq_def] at h
    simp only at h
    by_cases hd : objMem kvs (.ks K.dataKey) = true
    · rw [if_pos hd] at h
      exact tableExtract_mem K kvs st r ds k h hmem
    · rw [if_neg hd] at h
      cases fuel with
      | zero => cases h
      | succ m => exact goEntries_mem K k kvs m _ st [] r ds h hmem

/-! ### Claim theorems -/

/-- **C3** (code bug evidence): a table-shaped node whose transposed row
count exactly matches its header-cell count is fully populated, yet the
"Header and rows do not match / [header] is incomplete" diagnostic is
still emitted: the `self._print` at main.py lines 130-131 is not guarded
by an `else`, so it fires on every table-shaped node with non-empty data
and header — contradicting its own message text and the spec's
"diagnostic iff mismatch".  The second conjunct checks that the counts do
match at this input. -/
theorem c3_match_emits_mismatch_diag :
    xml_to_dict defaultKeys 1
      (.pobj [(.ks "@name", .pstr "T"), (.ks "rows", .pstr "a,b\nc,d"),
        (.ks "header", .pobj [(.ks "th",
          .plist [.pobj [(.ks "#text", .pstr "A")],
                  .pobj [(.ks "#text", .pstr "B")]])])]) [] =
      .ok ([(.ks "T", .pobj [(.ks "A", .ptup ["a", "c"]),
                             (.ks "B", .ptup ["b", "d"])])],
        [.headerRowsMismatch (.ks "T") "header"]) ∧
    (pyZipStar ((splitOnChar '\n' "a,b\nc,d").map (splitOnChar ','))).length = 2 := by
  exact ⟨rfl, rfl⟩

/-- **C4** (code bug evidence): projecting
`"container*,node*,table,images"` over a flattened tree holding two
containers, each with exactly one node whose table maps `images` to a
sub-tree, yields an *empty* `TABLE_B` with a resource-unavailable
diagnostic — not the two instance keys the spec (and the repository's own
README example for `TABLE_B`) describe.  After the first wildcard leaves
the multi-instance mapping `{c1, c2}` as the working payload, the second
wildcard looks `node` up in it, finds nothing, and `_process_payload`
breaks with no root key and no valid keys (main.py lines 198-200,
243-245). -/
theorem c4_double_wildcard_two_containers_empty :
    format_dict [] 9
      [(.ks "TABLE_B", .plist [.pstr "container*,node*,table,images"])]
      (.pobj [(.ks "TABLE_B", .pobj [])])
      (.pobj [(.ks "container", .pobj
        [(.ks "c1", .pobj [(.ks "node", .pobj [(.ks "n1", .pobj
            [(.ks "table", .pobj [(.ks "images",
              .pobj [(.ks "img1", .pobj [])])])])])]),
         (.ks "c2", .pobj [(.ks "node", .pobj [(.ks "n2", .pobj
            [(.ks "table", .pobj [(.ks "images",
              .pobj [(.ks "img2", .pobj [])])])])])])])]) =
      .ok ([(.ks "TABLE_B", .pobj [])],
        [.keyResourceUnavailable (.ks "TABLE_B")]) := by
  exact rfl

/-- **C5** (confirmed): with configuration
`{"TREE":{"TABLE_A":{}}, "TABLE_A":["table,info","table,metadata"]}`,
compiling the configuration yields the pruned tree `{TABLE_A: {}}` and no
key filters, and projecting the flattened tree
`{"table":{"info":{"x":"1"},"metadata":{"y":"2"}}}` returns exactly
`{"TABLE_A":{"x":"1","y":"2"}}` with no diagnostics: both no-wildcard
paths are resolved and merged, and the `TREE` key itself is skipped
because it is not a key of the tree configuration. -/
theorem c5_two_paths_merge_exact :
    process_config defaultKeys 9
      (.pobj [(.ks "TREE", .pobj [(.ks "TABLE_A", .pobj [])]),
        (.ks "TABLE_A", .plist [.pstr "table,info", .pstr "table,metadata"])]) =
      .ok (.pobj [(.ks "TABLE_A", .pobj [])],
           .pobj [(.ks "TABLE_A", .pobj [])], []) ∧
    format_dict [] 9
      [(.ks "TREE", .pobj [(.ks "TABLE_A", .pobj [])]),
       (.ks "TABLE_A", .plist [.pstr "table,info", .pstr "table,metadata"])]
      (.pobj [(.ks "TABLE_A", .pobj [])])
      (.pobj [(.ks "table", .pobj
        [(.ks "info", .pobj [(.ks "x", .pstr "1")]),
         (.ks "metadata", .pobj [(.ks "y", .pstr "2")])])]) =
      .ok ([(.ks "TABLE_A", .pobj [(.ks "x", .pstr "1"), (.ks "y", .pstr "2")])],
        []) := by
  exact ⟨rfl, rfl⟩

/-- **C7** (code bug evidence): `_set_target_keys` recurses into a child
dict only when that dict itself carries a truthy keys directive
(main.py lines 269-271), so a directive nested under a directive-free
parent is never collected.  On the repository README's own example tree
`{TABLE_A: {}, TABLE_B: {TABLE_C: {KEYS: "key1,key2"}}}` the collected
filter map is empty (first conjunct), even though the same directive at
top level is collected (third conjunct); the pruned copy does remove the
directive at all depths (second conjunct). -/
theorem c7_deep_keys_directive_missed :
    set_target_keys defaultKeys 9
      (.pobj [(.ks "TABLE_A", .pobj []),
        (.ks "TABLE_B", .pobj [(.ks "TABLE_C",
          .pobj [(.ks "KEYS", .pstr "key1,key2")])])]) = .ok [] ∧
    prune_tree defaultKeys 9
      (.pobj [(.ks "TABLE_A", .pobj []),
        (.ks "TABLE_B", .pobj [(.ks "TABLE_C",
          .pobj [(.ks "KEYS", .pstr "key1,key2")])])]) =
      .ok (.pobj [(.ks "TABLE_A", .pobj []),
        (.ks "TABLE_B", .pobj [(.ks "TABLE_C", .pobj [])])]) ∧
    set_target_keys defaultKeys 9
      (.pobj [(.ks "TABLE_C", .pobj [(.ks "KEYS", .pstr "key1,key2")])]) =
      .ok [(.ks "TABLE_C", .pstr "key1,key2")] := by
  exact ⟨rfl, rfl, rfl⟩

/-- **C1** (counterexample): a wildcard segment whose key resolves to a
mapping with exactly one child can still produce an instance-key layer:
with path `"node*,table,images"` and payload
`{node: {n1: {other: {z: {}}}}}`, the wildcard collapses to the single
child, but the remaining suffix does not resolve under the root key, so
`_summarize` falls into the instance loop and emits the spurious instance
key `other` (the child's own child) instead of using the child's contents
directly.  The first conjunct exhibits the run; the second checks the
wildcard key really has exactly one child. -/
theorem c1_counterexample_spurious_instance_layer :
    format_dict [] 9 [(.ks "T", .plist [.pstr "node*,table,images"])]
      (.pobj [(.ks "T", .pobj [])])
      (.pobj [(.ks "node", .pobj
        [(.ks "n1", .pobj [(.ks "other", .pobj [(.ks "z", .pobj [])])])])]) =
      .ok ([(.ks "T", .pobj [(.ks "other", .pobj [])])],
        [.resourceUnavailable ["table", "table", "images"]]) ∧
    objLookup [(.ks "node", PyV.pobj
        [(.ks "n1", .pobj [(.ks "other", .pobj [(.ks "z", .pobj [])])])])]
      (.ks "node") =
      some (.pobj [(.ks "n1", .pobj [(.ks "other", .pobj [(.ks "z", .pobj [])])])]) := by
  exact ⟨rfl, rfl⟩

/-- **C2** (counterexample): a table-shaped node whose number of data
rows equals its header-cell count (three rows, three header cells) can
still produce an *empty* TableMap: the code compares the header count
with the *transposed* column count `len(rows)` (here 2, the minimum
number of comma-separated cells per row), not with the row count
(main.py lines 125-126), so nothing is populated and the mismatch
diagnostic names the rows side. -/
theorem c2_counterexample_rowcount_not_transposed :
    xml_to_dict defaultKeys 1
      (.pobj [(.ks "@name", .pstr "T"), (.ks "rows", .pstr "a,b\nc,d\ne,f"),
        (.ks "header", .pobj [(.ks "th",
          .plist [.pobj [(.ks "#text", .pstr "A")],
                  .pobj [(.ks "#text", .pstr "B")],
                  .pobj [(.ks "#text", .pstr "C")]])])]) [] =
      .ok ([(.ks "T", .pobj [])], [.headerRowsMismatch (.ks "T") "rows"]) ∧
    (splitOnChar '\n' "a,b\nc,d\ne,f").length = 3 := by
  exact ⟨rfl, rfl⟩

/-- **C1** (amended): for a single projected path whose first segment is
the only wildcard segment and whose remaining star-free suffix is
non-empty, over a childless table of the tree configuration:
(a) when the wildcard's unmarked key `w` resolves to a mapping with
exactly one child whose contents are a mapping under which the first
remaining segment resolves truthily, the table's output is exactly the
direct resolution of the remaining segments against that single child —
no instance-key layer; (b) when `w` resolves to a mapping with N > 1
children (with distinct names, the first remaining segment not truthy
among them, and each instance resolving without an uncaught exception),
the table's output carries exactly N instance keys, one per child name,
in order.  The amendment restricts the original claim to this shape: the
counterexample `c1_counterexample_spurious_instance_layer` shows the
single-child case needs the suffix to resolve, and
`c4_double_wildcard_two_containers_empty` shows a second wildcard after a
multi-instance one aborts the path. -/
theorem c1_amended_wildcard_collapse :
    (∀ (t fc : Obj) (n : Nat) (T : PyKey) (pr out : Obj) (ds : List Diag)
      (po co o : Obj) (p key0 w r0 : String) (rs : List String)
      (ck : PyKey) (rv : PyV) (pd : List Diag),
      splitOnChar ',' p = key0 :: r0 :: rs →
      containsSub p "*" = true →
      containsSub key0 "*" = true →
      stripStar key0 = w →
      (∀ r ∈ r0 :: rs, containsSub r "*" = false) →
      r0 ≠ "" →
      objLookup pr T = some (.pobj []) →
      objLookup po (.ks w) = some (.pobj [(ck, .pobj co)]) →
      objLookup co (.ks r0) = some rv →
      rv.truthy = true →
      populate_dict t T (r0 :: rs) (.pobj co) = .ok (.pobj o, pd) →
      (o.map Prod.fst).Nodup →
      sEntries t fc (n + 2) [(T, .plist [.pstr p])] (.pobj pr) (.pobj po) out ds
        = .ok (objAssign out T (.pobj o), ds ++ pd)) ∧
    (∀ (t fc : Obj) (n : Nat) (T : PyKey) (pr out : Obj) (ds : List Diag)
      (po insts : Obj) (p key0 w r0 : String) (rs : List String),
      splitOnChar ',' p = key0 :: r0 :: rs →
      containsSub p "*" = true →
      containsSub key0 "*" = true →
      stripStar key0 = w →
      (∀ r ∈ r0 :: rs, containsSub r "*" = false) →
      r0 ≠ "" →
      objLookup pr T = some (.pobj []) →
      objLookup po (.ks w) = some (.pobj insts) →
      2 ≤ insts.length →
      (insts.map Prod.fst).Nodup →
      truthyOpt (objLookup insts (.ks r0)) = false →
      (∀ kv ∈ insts, ∃ o pd,
        populate_dict t T (r0 :: rs) kv.2 = .ok (.pobj o, pd)) →
      insts.length ≤ n →
      ∃ curF dsF,
        sEntries t fc (n + 2) [(T, .plist [.pstr p])] (.pobj pr) (.pobj po)
          out ds = .ok (objAssign out T (.pobj curF), dsF) ∧
        curF.map Prod.fst = insts.map Prod.fst) := by
  constructor
  · intro t fc n T pr out ds po co o p key0 w r0 rs ck rv pd
      hsplit hpstar hk0 hstrip hrest hr0 hT hw hrk hrvt hpop hnodup
    have hmemT : objMem pr T = true := by simp [objMem, hT]
    have hw' : objLookup po (.ks (stripStar key0)) =
        some (.pobj [(ck, .pobj co)]) := by rw [hstrip]; exact hw
    have hpp : process_payload (key0 :: r0 :: rs) (.pobj po) =
        .ok (r0, r0 :: rs, .pobj co) := by
      rw [process_payload, processPayloadGo_collapse key0 (r0 :: rs) [] ""
        false po ck (.pobj co) hk0 hw']
      rw [processPayloadGo_starFree (r0 :: rs) [] "" (.pobj co) hrest]
      simp [rootFold, rootFold_of_ne rs r0 hr0]
    have hupd : objUpdate [] o = o := by
      rw [objUpdate_append_of_fresh o [] (by simp) hnodup]
      simp
    simp only [sEntries, pyContainsKey, hmemT, Bool.not_true,
      Bool.false_eq_true, if_false, bindOk, pyGetD, hT, Option.getD_some,
      pyIter, List.map_cons, List.map_nil]
    simp only [sPaths, hsplit, hpstar, if_true, hpp, bindOk]
    simp only [List.isEmpty_cons, Bool.false_and, Bool.false_eq_true,
      if_false, pyGetOpt, hrk, bindOk, truthyOpt, hrvt, if_true, hpop,
      pyItem, objLookup_assign_self, asObjAttr, updArg, hupd,
      objAssign_assign, sPaths_nil, sEntries_nil]
  · intro t fc n T pr out ds po insts p key0 w r0 rs
      hsplit hpstar hk0 hstrip hrest hr0 hT hw hlen2 hnodup hro hpop hfuel
    have hmemT : objMem pr T = true := by simp [objMem, hT]
    have hw' : objLookup po (.ks (stripStar key0)) = some (.pobj insts) := by
      rw [hstrip]; exact hw
    have hinotnil : insts.isEmpty = false := by
      cases insts with
      | nil => simp at hlen2
      | cons a b => rfl
    have hlen1 : ¬ (insts.length = 1) := by omega
    have hpp : process_payload (key0 :: r0 :: rs) (.pobj po) =
        .ok (r0, rs, .pobj insts) := by
      rw [process_payload, processPayloadGo_multi key0 (r0 :: rs) [] "" false
        po insts hk0 hw' hinotnil hlen1]
      rw [processPayloadGo_wildTrue r0 rs [] "" _ (hrest r0 (by simp))]
      rw [if_pos rfl]
      rw [processPayloadGo_starFree rs [] r0 _
        (fun r hr => hrest r (by simp [hr]))]
      rw [rootFold_of_ne rs r0 hr0]
      rfl
    simp only [sEntries, pyContainsKey, hmemT, Bool.not_true,
      Bool.false_eq_true, if_false, bindOk, pyGetD, hT, Option.getD_some,
      pyIter, List.map_cons, List.map_nil]
    simp only [sPaths, hsplit, hpstar, if_true, hpp, bindOk]
    simp only [decide_eq_true_eq, hr0, decide_False, Bool.and_false,
      Bool.false_eq_true, if_false, pyGetOpt, bindOk, hro, pyItems]
    obtain ⟨curF, dsF, hrun, hkeys⟩ := sInstances_childless t fc T (r0 :: rs)
      insts n (objAssign out T (.pobj [])) ds [] hfuel (by simpa using hnodup)
      (objLookup_assign_self _ _ _) hpop
    rw [hrun]
    simp only [bindOk, sPaths_nil, sEntries_nil, objAssign_assign]
    exact ⟨curF, dsF, rfl, by simpa using hkeys⟩

/-- Witness for **C1**: the amended theorem applied at the path
`"node*,table,images"`; the single-child payload collapses to the direct
contents `{a: "1"}` with no instance layer, and the two-child payload
yields exactly the instance keys `n1, n2`. -/
theorem c1_amended_wildcard_collapse_witness :
    sEntries [] [] 2 [(.ks "T", .plist [.pstr "node*,table,images"])]
      (.pobj [(.ks "T", .pobj [])])
      (.pobj [(.ks "node", .pobj [(.ks "n1", .pobj
        [(.ks "table", .pobj [(.ks "images",
          .pobj [(.ks "a", .pstr "1")])])])])]) [] [] =
      .ok ([(.ks "T", .pobj [(.ks "a", .pstr "1")])], []) ∧
    (∃ curF dsF,
      sEntries [] [] 4 [(.ks "T", .plist [.pstr "node*,table,images"])]
        (.pobj [(.ks "T", .pobj [])])
        (.pobj [(.ks "node", .pobj
          [(.ks "n1", .pobj [(.ks "table", .pobj [(.ks "images",
             .pobj [(.ks "a", .pstr "1")])])]),
           (.ks "n2", .pobj [(.ks "table", .pobj [(.ks "images",
             .pobj [(.ks "b", .pstr "2")])])])])]) [] [] =
        .ok (objAssign [] (.ks "T") (.pobj curF), dsF) ∧
      curF.map Prod.fst = [.ks "n1", .ks "n2"]) := by
  constructor
  · exact c1_amended_wildcard_collapse.1 [] [] 0 (.ks "T")
      [(.ks "T", .pobj [])] [] []
      [(.ks "node", .pobj [(.ks "n1", .pobj [(.ks "table", .pobj
        [(.ks "images", .pobj [(.ks "a", .pstr "1")])])])])]
      [(.ks "table", .pobj [(.ks "images", .pobj [(.ks "a", .pstr "1")])])]
      [(.ks "a", .pstr "1")]
      "node*,table,images" "node*" "node" "table" ["images"]
      (.ks "n1") (.pobj [(.ks "images", .pobj [(.ks "a", .pstr "1")])]) []
      rfl rfl rfl rfl (by decide) (by decide) rfl rfl rfl rfl rfl
      (by decide)
  · exact c1_amended_wildcard_collapse.2 [] [] 2 (.ks "T")
      [(.ks "T", .pobj [])] [] []
      [(.ks "node", .pobj
        [(.ks "n1", .pobj [(.ks "table", .pobj [(.ks "images",
           .pobj [(.ks "a", .pstr "1")])])]),
         (.ks "n2", .pobj [(.ks "table", .pobj [(.ks "images",
           .pobj [(.ks "b", .pstr "2")])])])])]
      [(.ks "n1", .pobj [(.ks "table", .pobj [(.ks "images",
         .pobj [(.ks "a", .pstr "1")])])]),
       (.ks "n2", .pobj [(.ks "table", .pobj [(.ks "images",
         .pobj [(.ks "b", .pstr "2")])])])]
      "node*,table,images" "node*" "node" "table" ["images"]
      rfl rfl rfl rfl (by decide) (by decide) rfl rfl (by decide)
      (by decide) rfl
      (by
        intro kv hkv
        rcases List.mem_cons.mp hkv with h | h
        · exact ⟨[(.ks "a", .pstr "1")], [], by rw [h]; rfl⟩
        · rcases List.mem_cons.mp h with h2 | h2
          · exact ⟨[(.ks "b", .pstr "2")], [], by rw [h2]; rfl⟩
          · cases h2)
      (by decide)

/-- **C2** (amended): the extraction populates one column per header cell
exactly when the *transposed* column count (the minimum number of
comma-separated cells over the newline-split rows — `len(rows)` after
`zip(*...)` in main.py line 125) equals the header-cell count, not when
the row count does (see `c2_counterexample_rowcount_not_transposed`).
Under that hypothesis (plus distinct header texts, each cell carrying the
text key), the TableMap pairs each header cell's text with its column in
header order, and every column's length equals the number of data rows. -/
theorem c2_amended_transposed_count (K : Keys) (fuel : Nat) (kvs out_d : Obj)
    (name data : String) (ho : Obj) (cells : List PyV) (texts : List String)
    (hname : objLookup kvs (.ks K.nameKey) = some (.pstr name))
    (hdata : objLookup kvs (.ks K.dataKey) = some (.pstr data))
    (hdne : data.isEmpty = false)
    (hheader : objLookup kvs (.ks K.headerKey) = some (.pobj ho))
    (hth : objLookup ho (.ks K.tableKey) = some (.plist cells))
    (hcne : cells.isEmpty = false)
    (hf : List.Forall₂ (fun c t => ∃ o, c = PyV.pobj o ∧
      objLookup o (.ks K.headerTextKey) = some (.pstr t)) cells texts)
    (hnodup : texts.Nodup)
    (hlen : (pyZipStar ((splitOnChar '\n' data).map (splitOnChar ','))).length
      = cells.length) :
    xml_to_dict K fuel (.pobj kvs) out_d =
      .ok (objAssign out_d (.ks name) (.pobj ((texts.map PyKey.ks).zip
          ((pyZipStar ((splitOnChar '\n' data).map (splitOnChar ','))).map
            PyV.ptup))),
        [.headerRowsMismatch (.ks name) K.headerKey]) ∧
    ((texts.map PyKey.ks).zip
      ((pyZipStar ((splitOnChar '\n' data).map (splitOnChar ','))).map
        PyV.ptup)).length = cells.length ∧
    (∀ r ∈ pyZipStar ((splitOnChar '\n' data).map (splitOnChar ',')),
      r.length = (splitOnChar '\n' data).length) := by
  have hmem : objMem kvs (.ks K.dataKey) = true := by simp [objMem, hdata]
  have htexts : texts.length = cells.length := hf.length_eq.symm
  refine ⟨?_, ?_, ?_⟩
  · rw [xml_to_dict.eq_def]
    simp only [hmem, if_true]
    simp only [tableExtract, pyItem, hname, bindOk, valToKey, pyGetD, hheader,
      Option.getD_some, hth, hdata, PyV.truthy, hdne, hcne, Bool.not_false,
      Bool.and_self, if_true, pySplit, pyIter]
    rw [headerLoop_append K cells texts
      (pyZipStar ((splitOnChar '\n' data).map (splitOnChar ','))) [] hf hlen
      (by simpa using hnodup.map (fun a b h => PyKey.ks.inj h))]
    simp only [List.nil_append, hlen, lt_irrefl, if_neg, bindOk]
    rw [objAssign_assign]
    rfl
  · rw [List.length_zip]
    simp [htexts, hlen]
  · intro r hr
    simp only [pyZipStar, List.mem_map, List.mem_range] at hr
    obtain ⟨i, _, rfl⟩ := hr
    simp

/-- Witness for **C2**: the amended theorem applied at a 2×2 table with
header cells `A`, `B`: the extracted TableMap pairs `A` with column
`(a, c)` and `B` with column `(b, d)`. -/
theorem c2_amended_transposed_count_witness :
    xml_to_dict defaultKeys 0
      (.pobj [(.ks "@name", .pstr "T"), (.ks "rows", .pstr "a,b\nc,d"),
        (.ks "header", .pobj [(.ks "th",
          .plist [.pobj [(.ks "#text", .pstr "A")],
                  .pobj [(.ks "#text", .pstr "B")]])])]) [] =
      .ok ([(.ks "T", .pobj [(.ks "A", .ptup ["a", "c"]),
                             (.ks "B", .ptup ["b", "d"])])],
        [.headerRowsMismatch (.ks "T") "header"]) :=
  (c2_amended_transposed_count defaultKeys 0
    [(.ks "@name", .pstr "T"), (.ks "rows", .pstr "a,b\nc,d"),
     (.ks "header", .pobj [(.ks "th",
       .plist [.pobj [(.ks "#text", .pstr "A")],
               .pobj [(.ks "#text", .pstr "B")]])])] []
    "T" "a,b\nc,d" [(.ks "th",
      .plist [.pobj [(.ks "#text", .pstr "A")],
              .pobj [(.ks "#text", .pstr "B")]])]
    [.pobj [(.ks "#text", .pstr "A")], .pobj [(.ks "#text", .pstr "B")]]
    ["A", "B"] rfl rfl rfl rfl rfl rfl
    (List.Forall₂.cons ⟨[(.ks "#text", .pstr "A")], rfl, rfl⟩
      (List.Forall₂.cons ⟨[(.ks "#text", .pstr "B")], rfl, rfl⟩
        List.Forall₂.nil))
    (by decide) rfl).1

/-- **C9** (counterexample): `parse` *can* raise under malformed-data
conditions: `process_config` runs outside every `try` block
(main.py line 290), and with a configuration whose `TREE` key holds a
string, `_set_target_keys` calls `.items()` on that string and the
resulting `AttributeError` propagates out of `parse` to the caller. -/
theorem c9_counterexample_parse_raises_on_bad_tree :
    parse defaultKeys 9 "custom" (.pobj [(.ks "TREE", .pstr "x")])
      (.pobj []) = .error .attrError := by
  exact rfl

/-- **C6** (confirmed): key filters restrict exactly the keys a resolved
path takes from the looked-up source mapping and apply only to the table
they are declared for.  (1) when a filter string is recorded for table
`key`, every key of `_populate_dict`'s successful output names a member
of the comma-split, stripped filter set, however many keys the source
mapping has; (2) for any table name with no recorded filter — in
particular every descendant table when only `T` carries one — the
successful lookup is returned entirely unfiltered; (3) concretely, with
filter `{k1}` on `T` and child table `C`, `T`'s populated entries keep
only `k1` while `C`'s nested output retains `k3`, a key outside `T`'s
filter. -/
theorem c6_key_filter_scope :
    (∀ (t : Obj) (key : PyKey) (vks : List String) (sub : PyV) (f : String)
      (o : Obj) (ds : List Diag),
      objLookup t key = some (.pstr f) →
      populate_dict t key vks sub = .ok (.pobj o, ds) →
      ∀ kk ∈ o.map Prod.fst, ∃ s, kk = PyKey.ks s ∧
        ((splitOnChar ',' f).map pyStrip).contains s = true) ∧
    (∀ (t : Obj) (key : PyKey) (vks : List String) (sub tmp : PyV),
      objMem t key = false →
      get_dict_values sub vks = .ok tmp →
      populate_dict t key vks sub = .ok (tmp, [])) ∧
    format_dict [(.ks "T", .pstr "k1")] 9
      [(.ks "T", .plist [.pstr "w*,a"]), (.ks "C", .plist [.pstr "c"])]
      (.pobj [(.ks "T", .pobj [(.ks "C", .pobj [])])])
      (.pobj [(.ks "w", .pobj
        [(.ks "i1", .pobj
          [(.ks "a", .pobj [(.ks "k1", .pstr "v1"), (.ks "k2", .pstr "v2")]),
           (.ks "c", .pobj [(.ks "k3", .pstr "v3")])]),
         (.ks "i2", .pobj
          [(.ks "a", .pobj [(.ks "k1", .pstr "u1"), (.ks "k2", .pstr "u2")]),
           (.ks "c", .pobj [(.ks "k3", .pstr "u3")])])])]) =
      .ok ([(.ks "T", .pobj
        [(.ks "i1", .pobj [(.ks "k1", .pstr "v1"),
          (.ks "C", .pobj [(.ks "k3", .pstr "v3")])]),
         (.ks "i2", .pobj [(.ks "k1", .pstr "u1"),
          (.ks "C", .pobj [(.ks "k3", .pstr "u3")])])])], []) := by
  refine ⟨?_, ?_, rfl⟩
  · intro t key vks sub f o ds hlook hpop kk hkk
    have hmem : objMem t key = true := by simp [objMem, hlook]
    cases hg : get_dict_values sub vks with
    | error e =>
      cases e with
      | keyError =>
        simp only [populate_dict, hg, Except.ok.injEq, Prod.mk.injEq,
          PyV.pobj.injEq] at hpop
        rw [← hpop.1] at hkk
        simp at hkk
      | typeError => simp [populate_dict, hg] at hpop
      | attrError => simp [populate_dict, hg] at hpop
      | valueError => simp [populate_dict, hg] at hpop
      | indexError => simp [populate_dict, hg] at hpop
      | stopIteration => simp [populate_dict, hg] at hpop
      | fuelExhausted => simp [populate_dict, hg] at hpop
    | ok tmp =>
      simp only [populate_dict, hg, hmem, if_true, hlook, Option.getD_some,
        pySplit, bindOk] at hpop
      cases tmp with
      | pobj items =>
        simp only [pyItems, bindOk] at hpop
        rw [Except.ok.injEq, Prod.mk.injEq, PyV.pobj.injEq] at hpop
        rw [← hpop.1] at hkk
        obtain ⟨kv, hkvmem, hkv1⟩ := List.mem_map.mp hkk
        have hpred := List.of_mem_filter hkvmem
        cases hkv : kv.1 with
        | ks s =>
          rw [hkv] at hpred hkv1
          exact ⟨s, hkv1.symm, by simpa using hpred⟩
        | knone => rw [hkv] at hpred; simp at hpred
        | ktup l => rw [hkv] at hpred; simp at hpred
      | pstr s => simp [pyItems, bindErr] at hpop
      | pnone => simp [pyItems, bindErr] at hpop
      | ptup l => simp [pyItems, bindErr] at hpop
      | plist l => simp [pyItems, bindErr] at hpop
  · intro t key vks sub tmp hmem hget
    simp [populate_dict, hget, hmem]

/-- Witness for **C6**: part (1) applied with filter string `"k1, k2"` on
table `T` — the surviving key `k1` names a member of the stripped filter
set; part (2) applied with table `C` absent from the filter map — the
looked-up mapping `{k3: v3}` is returned unfiltered. -/
theorem c6_key_filter_scope_witness :
    (∃ s, PyKey.ks "k1" = PyKey.ks s ∧
      ((splitOnChar ',' "k1, k2").map pyStrip).contains s = true) ∧
    populate_dict [(.ks "T", .pstr "k1")] (.ks "C") ["c"]
      (.pobj [(.ks "c", .pobj [(.ks "k3", .pstr "v3")])]) =
      .ok (.pobj [(.ks "k3", .pstr "v3")], []) := by
  constructor
  · exact c6_key_filter_scope.1 [(.ks "T", .pstr "k1, k2")] (.ks "T") ["a"]
      (.pobj [(.ks "a", .pobj [(.ks "k1", .pstr "v")])]) "k1, k2"
      [(.ks "k1", .pstr "v")] [] rfl rfl (.ks "k1") (by decide)
  · exact c6_key_filter_scope.2.1 [(.ks "T", .pstr "k1")] (.ks "C") ["c"]
      (.pobj [(.ks "c", .pobj [(.ks "k3", .pstr "v3")])])
      (.pobj [(.ks "k3", .pstr "v3")]) rfl rfl

/-- **C8** (confirmed): a no-wildcard path naming a missing key is
tolerated.  (1) At the path loop: when the direct lookup raises
`KeyError`, processing the path leaves the table's output dictionary
unchanged, appends the resource diagnostic, and continues with the
remaining paths of the table; (2) at the table loop: a table whose single
path is missing still gets its (empty) output entry, the diagnostic is
emitted, and every subsequent table is processed from an otherwise
unchanged state. -/
theorem c8_missing_path_tolerance :
    (∀ (t fc : Obj) (n : Nat) (key : PyKey) (children : PyV) (rest : List PyV)
      (payload : PyV) (out : Obj) (ds : List Diag) (p : String) (cur : Obj),
      containsSub p "*" = false →
      get_dict_values payload (splitOnChar ',' p) = .error .keyError →
      objLookup out key = some (.pobj cur) →
      sPaths t fc (n + 1) key children (.pstr p :: rest) payload out ds =
        sPaths t fc n key children rest payload out
          (ds ++ [.resourceUnavailable (splitOnChar ',' p)])) ∧
    (∀ (t fc : Obj) (n : Nat) (key : PyKey) (entries : Obj) (po : Obj)
      (payload : PyV) (out : Obj) (ds : List Diag) (p : String),
      objMem po key = true →
      containsSub p "*" = false →
      get_dict_values payload (splitOnChar ',' p) = .error .keyError →
      sEntries t fc (n + 2) ((key, .plist [.pstr p]) :: entries) (.pobj po)
        payload out ds =
        sEntries t fc (n + 1) entries (.pobj po) payload
          (objAssign out key (.pobj []))
          (ds ++ [.resourceUnavailable (splitOnChar ',' p)])) := by
  have hpopkE : ∀ (t : Obj) (key : PyKey) (payload : PyV) (p : String),
      get_dict_values payload (splitOnChar ',' p) = .error .keyError →
      populate_dict t key (splitOnChar ',' p) payload =
        .ok (.pobj [], [.resourceUnavailable (splitOnChar ',' p)]) := by
    intro t key payload p hget
    simp [populate_dict, hget]
  constructor
  · intro t fc n key children rest payload out ds p cur hstar hget hlook
    simp only [sPaths, hstar, Bool.false_eq_true, if_false,
      hpopkE t key payload p hget, bindOk, pyItem, hlook, asObjAttr, updArg,
      objUpdate_nil, objAssign_self_of_lookup out key (.pobj cur) hlook]
  · intro t fc n key entries po payload out ds p hmem hstar hget
    simp only [sEntries, pyContainsKey, hmem, Bool.not_true,
      Bool.false_eq_true, if_false, bindOk, pyGetD, pyIter]
    simp only [sPaths, hstar, Bool.false_eq_true, if_false,
      hpopkE t key payload p hget, bindOk, pyItem, objLookup_assign_self,
      asObjAttr, updArg, objUpdate_nil, objAssign_assign, sPaths_nil]

/-- Witness for **C8**: both parts applied at the missing path
`"missing,path"` over the empty payload, with a second table `U`
following. -/
theorem c8_missing_path_tolerance_witness :
    sPaths [] [] 3 (.ks "T") (.pobj []) [.pstr "missing,path"] (.pobj [])
      [(.ks "T", .pobj [])] [] =
      sPaths [] [] 2 (.ks "T") (.pobj []) [] (.pobj [])
        [(.ks "T", .pobj [])] [.resourceUnavailable ["missing", "path"]] ∧
    sEntries [] [] 4 [(.ks "T", .plist [.pstr "missing,path"]),
        (.ks "U", .plist [])]
      (.pobj [(.ks "T", .pobj []), (.ks "U", .pobj [])]) (.pobj []) [] [] =
      sEntries [] [] 3 [(.ks "U", .plist [])]
        (.pobj [(.ks "T", .pobj []), (.ks "U", .pobj [])]) (.pobj [])
        (objAssign [] (.ks "T") (.pobj []))
        [.resourceUnavailable ["missing", "path"]] := by
  constructor
  · exact c8_missing_path_tolerance.1 [] [] 2 (.ks "T") (.pobj []) []
      (.pobj []) [(.ks "T", .pobj [])] [] "missing,path" [] rfl rfl rfl
  · exact c8_missing_path_tolerance.2 [] [] 2 (.ks "T")
      [(.ks "U", .plist [])] [(.ks "T", .pobj []), (.ks "U", .pobj [])]
      (.pobj []) [] [] "missing,path" rfl rfl rfl

/-- **C9** (amended): the no-raise guarantee holds for every stage of
`parse` *after* `process_config`: (1) an invalid `parser_type` raises
`ValueError` at construction or property assignment; (2) whenever
`process_config` succeeds, `parse` returns normally, whatever the XML
value and configuration contents; (3) if flattening raises, `parse`
returns the empty mapping; (4) if the projection stage raises, `parse`
returns the unformatted flattened mapping.  The original claim's
unconditional "never raises under malformed data" is refuted by
`c9_counterexample_parse_raises_on_bad_tree`: `process_config` itself
runs outside every `try` and propagates `AttributeError` on a
structurally malformed `TREE` value. -/
theorem c9_amended_parse_error_surface :
    (∀ pt : String, pt ≠ "raw" → pt ≠ "custom" →
      parserTypeCheck pt = .error .valueError) ∧
    (∀ (K : Keys) (fuel : Nat) (pt : String) (config xmlDoc : PyV)
      (res : PyV × PyV × Obj), process_config K fuel config = .ok res →
      ∃ v, parse K fuel pt config xmlDoc = .ok v) ∧
    (∀ (K : Keys) (fuel : Nat) (config xmlDoc : PyV) (res : PyV × PyV × Obj)
      (e : PyErr), process_config K fuel config = .ok res →
      xml_to_dict K fuel xmlDoc [] = .error e →
      parse K fuel "custom" config xmlDoc = .ok (.pobj [])) ∧
    (∀ (K : Keys) (fuel : Nat) (config xmlDoc : PyV) (raw tree : PyV)
      (targets : Obj) (unf : Obj) (uds : List Diag) (e : PyErr),
      process_config K fuel config = .ok (raw, tree, targets) →
      xml_to_dict K fuel xmlDoc [] = .ok (unf, uds) →
      tree.truthy = true →
      (do
        let first ← firstVal unf
        let cfgEntries ← pyItems config
        sEntries targets cfgEntries fuel cfgEntries tree first [] []) =
          Except.error e →
      parse K fuel "custom" config xmlDoc = .ok (.pobj unf)) := by
  refine ⟨?_, ?_, ?_, ?_⟩
  · intro pt h1 h2
    simp [parserTypeCheck, h1, h2]
  · intro K fuel pt config xmlDoc res hpc
    obtain ⟨raw, tree, targets⟩ := res
    rw [parse, hpc, bindOk]
    by_cases hpt : pt = "raw"
    · exact ⟨xmlDoc, by rw [if_pos hpt]⟩
    · rw [if_neg hpt]
      cases hxd : xml_to_dict K fuel xmlDoc [] with
      | error e => exact ⟨.pobj [], by simp [hxd]⟩
      | ok p =>
        obtain ⟨unf, uds⟩ := p
        by_cases htr : (raw, tree, targets).2.1.truthy
        · cases hm : (do
              let first ← firstVal unf
              let cfgEntries ← pyItems config
              sEntries (raw, tree, targets).2.2 cfgEntries fuel cfgEntries
                (raw, tree, targets).2.1 first [] [] :
              Except PyErr (Obj × List Diag)) with
          | error e => exact ⟨.pobj unf, by simp [hxd, htr, hm]⟩
          | ok q => exact ⟨.pobj q.1, by simp [hxd, htr, hm]⟩
        · refine ⟨.pobj unf, ?_⟩
          rw [Bool.not_eq_true] at htr
          simp [hxd, htr]
  · intro K fuel config xmlDoc res e hpc hxd
    obtain ⟨raw, tree, targets⟩ := res
    rw [parse, hpc, bindOk]
    simp [hxd]
  · intro K fuel config xmlDoc raw tree targets unf uds e hpc hxd htr hproj
    rw [parse, hpc, bindOk]
    simp [hxd, htr, hproj]

/-- Witness for **C9**: (1) `parser_type := "bogus"` raises `ValueError`;
(2) a raw-mode parse with an empty configuration returns normally;
(3) a table node missing its name attribute makes flattening raise
`KeyError`, and `parse` returns `{}`; (4) an XML value that flattens to
an empty mapping makes the projection stage raise `StopIteration`
(`next(iter({}))`), and `parse` falls back to the unformatted result. -/
theorem c9_amended_parse_error_surface_witness :
    parserTypeCheck "bogus" = .error .valueError ∧
    (∃ v, parse defaultKeys 3 "raw" (.pobj []) (.pobj []) = .ok v) ∧
    parse defaultKeys 3 "custom" (.pobj [])
      (.pobj [(.ks "rows", .pstr "r")]) = .ok (.pobj []) ∧
    parse defaultKeys 3 "custom"
      (.pobj [(.ks "TREE", .pobj [(.ks "T", .pobj [])])])
      (.pobj [(.ks "e", .pstr "")]) = .ok (.pobj []) := by
  refine ⟨?_, ?_, ?_, ?_⟩
  · exact c9_amended_parse_error_surface.1 "bogus" (by decide) (by decide)
  · exact c9_amended_parse_error_surface.2.1 defaultKeys 3 "raw" (.pobj [])
      (.pobj []) (.pobj [], .pobj [], []) rfl
  · exact c9_amended_parse_error_surface.2.2.1 defaultKeys 3 (.pobj [])
      (.pobj [(.ks "rows", .pstr "r")]) (.pobj [], .pobj [], [])
      .keyError rfl rfl
  · exact c9_amended_parse_error_surface.2.2.2 defaultKeys 3
      (.pobj [(.ks "TREE", .pobj [(.ks "T", .pobj [])])])
      (.pobj [(.ks "e", .pstr "")])
      (.pobj [(.ks "T", .pobj [])]) (.pobj [(.ks "T", .pobj [])]) []
      [] [] .stopIteration rfl rfl rfl rfl

/-- **C10** (confirmed): `xml_to_dict` is not a pure function of its node
when the accumulator is omitted: CPython materialises the default `{}`
once, so all defaulted calls share one object.  (1) In the shared-state
model, a successful defaulted call returns exactly the new shared state,
and every top-level key of the prior shared state is still an entry of
the returned mapping (entries produced by an earlier call leak into the
next result); (2) concretely, calling on `{a: "x"}` then `{b: "y"}`
returns `{x: {}, y: {}}` for the second call, while a fresh run on the
equal input `{b: "y"}` returns `{y: {}}` — two runs on equal inputs give
different results. -/
theorem c10_shared_default_accumulator :
    (∀ (K : Keys) (fuel : Nat) (st : Obj) (in_d : PyV) (r st' : Obj),
      xmlToDictDefaulted K fuel st in_d = .ok (r, st') →
      st' = r ∧ ∀ k, objMem st k = true → objMem r k = true) ∧
    xmlToDictDefaulted defaultKeys 5 [] (.pobj [(.ks "a", .pstr "x")]) =
      .ok ([(.ks "x", .pobj [])], [(.ks "x", .pobj [])]) ∧
    xmlToDictDefaulted defaultKeys 5 [(.ks "x", .pobj [])]
      (.pobj [(.ks "b", .pstr "y")]) =
      .ok ([(.ks "x", .pobj []), (.ks "y", .pobj [])],
        [(.ks "x", .pobj []), (.ks "y", .pobj [])]) ∧
    xmlToDictDefaulted defaultKeys 5 [] (.pobj [(.ks "b", .pstr "y")]) =
      .ok ([(.ks "y", .pobj [])], [(.ks "y", .pobj [])]) ∧
    [(.ks "x", PyV.pobj []), (.ks "y", PyV.pobj [])] ≠
      ([(.ks "y", PyV.pobj [])] : Obj) := by
  refine ⟨?_, rfl, rfl, rfl, ?_⟩
  · intro K fuel st in_d r st' h
    cases hx : xml_to_dict K fuel in_d st with
    | error e => rw [xmlToDictDefaulted, hx] at h; cases h
    | ok p =>
      obtain ⟨r0, d0⟩ := p
      rw [xmlToDictDefaulted, hx] at h
      cases h
      exact ⟨rfl, fun k hk => xmlToDict_mem K fuel in_d st _ _ k hx hk⟩
  · intro h
    exact absurd (congrArg (List.map Prod.fst) h) (by decide)

/-- Witness for **C10**: the preservation part applied to the second
defaulted call of the concrete sequence — the key `x`, produced by the
first call, is still present in the second call's result. -/
theorem c10_shared_default_accumulator_witness :
    objMem [(.ks "x", PyV.pobj []), (.ks "y", PyV.pobj [])] (.ks "x") =
      true :=
  (c10_shared_default_accumulator.1 defaultKeys 5 [(.ks "x", .pobj [])]
    (.pobj [(.ks "b", .pstr "y")]) [(.ks "x", .pobj []), (.ks "y", .pobj [])]
    [(.ks "x", .pobj []), (.ks "y", .pobj [])] rfl).2 (.ks "x") rfl

end CustomXMLParser
